import Mathlib

/-!
Verification of the byte-length calculator (`src/parser/calculate_size.ts`)
and the buffer adapter (`src/ensure_buffer.ts`) of the deno_bson codec.

JavaScript values reachable by `calculateElement`'s `typeof`/`instanceof`
dispatch are embedded as a closed tagged union `BSONValue`; JS numbers are
embedded as rationals (the dispatch only inspects integrality and order
comparisons); UTF-8 byte lengths use Lean's `String.utf8ByteSize`.
-/

/-- UTF-8 byte length of a string, embedding `Buffer.byteLength(s, "utf8")`. -/
def utf8ByteLength (s : String) : Nat :=
  s.utf8ByteSize

/-- Modelled from the spec: the upper bound of the "defined 32-bit signed
range" from `constants.ts` (not in the excerpt); the spec fixes
2147483647 / 2147483648 as the 4-byte / 8-byte boundary. -/
def BSON_INT32_MAX : Int := 2147483647

/-- Modelled from the spec: the lower bound of the "defined 32-bit signed
range" from `constants.ts` (not in the excerpt). -/
def BSON_INT32_MIN : Int := -2147483648

/-- Modelled from the spec: the upper bound of the "defined safe-integer
range" from `constants.ts` (not in the excerpt). -/
def JS_INT_MAX : Int := 2 ^ 53

/-- Modelled from the spec: the lower bound of the "defined safe-integer
range" from `constants.ts` (not in the excerpt). -/
def JS_INT_MIN : Int := -(2 ^ 53)

/-- Modelled from the spec: the legacy byte-array sub-type constant
`BinarySizes.SUBTYPE_BYTE_ARRAY` from `binary.ts` (not in the excerpt); the
sizing code only compares sub-types against it for equality, so only its
identity matters. -/
def SUBTYPE_BYTE_ARRAY : Nat := 2

/-- Modelled from the spec: `normalizedFunctionString` from `parser/utils.ts`
(not in the excerpt), producing a function's "normalized source text"; the
sizing code only takes its UTF-8 byte length, so it is kept abstract as the
carried source text. -/
def normalizedFunctionString (src : String) : String :=
  src

/-- The closed union of value shapes distinguished by `calculateElement`'s
`typeof` / `instanceof` dispatch.  `vToBSON r` is an object exposing a
(non-enumerable) `toBSON` method whose invocation returns `r`.
`vBinaryView n` covers `ArrayBuffer.isView(value)` and
`value instanceof ArrayBuffer` inputs of byte length `n`.  `vBinary` carries
`position` (payload length) and `sub_type`.  `vFunction` carries the source
text and the optional `scope` document property. -/
inductive BSONValue where
  | vString (s : String)
  | vNumber (q : Rat)
  | vUndefined
  | vBoolean (b : Bool)
  | vNull
  | vMinKey
  | vMaxKey
  | vObjectId
  | vDate
  | vBinaryView (byteLength : Nat)
  | vLong
  | vDouble
  | vTimestamp
  | vDecimal128
  | vCode (code : String) (scope : Option (List (String × BSONValue)))
  | vBinary (position : Nat) (sub_type : Nat)
  | vSymbol (s : String)
  | vDBRef (collection : String) (oid : BSONValue) (db : Option String)
      (fields : List (String × BSONValue))
  | vRegExp (source : String) (global ignoreCase multiline : Bool)
  | vBSONRegExp (pattern options : String)
  | vDocument (fields : List (String × BSONValue))
  | vArray (elems : List BSONValue)
  | vFunction (source : String) (scope : Option (List (String × BSONValue)))
  | vBigInt
  | vToBSON (result : BSONValue)

/-- Own enumerable properties of a value, as iterated by `for (const key in
object)`: the fields of a plain document; empty for every other shape. -/
def keysOf : BSONValue → List (String × BSONValue)
  | .vDocument fields => fields
  | _ => []

mutual

/-- Termination weight of a value (not part of the source; it only justifies
the recursion of the size functions, including the calls on documents freshly
assembled in the `DBRef`, `Code` and function branches). -/
def bsonWeight : BSONValue → Nat
  | .vCode _ (some scope) => 2 + bsonWeightL scope
  | .vFunction _ (some scope) => 2 + bsonWeightL scope
  | .vDBRef _ oid _ fields => 10 + bsonWeight oid + bsonWeightL fields
  | .vDocument fields => 1 + bsonWeightL fields
  | .vArray elems => 1 + bsonWeightA elems
  | .vToBSON r => 1 + bsonWeight r
  | _ => 1

/-- Termination weight of a field list. -/
def bsonWeightL : List (String × BSONValue) → Nat
  | [] => 0
  | p :: rest => 2 + bsonWeight p.2 + bsonWeightL rest

/-- Termination weight of an element list. -/
def bsonWeightA : List BSONValue → Nat
  | [] => 0
  | e :: es => 1 + bsonWeight e + bsonWeightA es

end

theorem bsonWeightL_append (a b : List (String × BSONValue)) :
    bsonWeightL (a ++ b) = bsonWeightL a + bsonWeightL b := by
  induction a with
  | nil => simp [bsonWeightL]
  | cons p rest ih => simp [bsonWeightL, ih]; omega

theorem bsonWeight_pos (v : BSONValue) : 1 ≤ bsonWeight v := by
  rw [bsonWeight.eq_def]
  split <;> omega

theorem bsonWeightL_keysOf_lt (v : BSONValue) :
    bsonWeightL (keysOf v) < bsonWeight v := by
  cases v <;> simp only [keysOf, bsonWeightL] <;>
    first
      | exact bsonWeight_pos _
      | (simp only [bsonWeight]; omega)

mutual

/-- Embedding of `calculateObjectSize` (calculate_size.ts, lines 20-57):
4 + 1 bytes of document overhead, plus per-element sizes; arrays use
stringified indices as names with `isArray = true`; a non-array object first
has a `toBSON` conversion applied when it exposes one. -/
def calculateObjectSize (object : BSONValue) (serializeFunctions ignoreUndefined : Bool) : Nat :=
  match object with
  | .vArray elems => 4 + 1 + calcArrayElems elems 0 serializeFunctions ignoreUndefined
  | .vToBSON r => 4 + 1 + calcObjectFields (keysOf r) serializeFunctions ignoreUndefined
  | obj => 4 + 1 + calcObjectFields (keysOf obj) serializeFunctions ignoreUndefined
termination_by (bsonWeight object, 0)
decreasing_by
  all_goals apply Prod.Lex.left
  all_goals
    first
      | exact bsonWeightL_keysOf_lt _
      | (refine lt_trans (bsonWeightL_keysOf_lt _) ?_ <;> simp only [bsonWeight] <;> omega)
      | (simp only [bsonWeight, bsonWeightA]; omega)

/-- The `for (let i = 0; ...)` loop of `calculateObjectSize` over an array,
accumulating `calculateElement(i.toString(), object[i], sf, true, iu)`. -/
def calcArrayElems (elems : List BSONValue) (i : Nat) (serializeFunctions ignoreUndefined : Bool) : Nat :=
  match elems with
  | [] => 0
  | e :: rest =>
      calculateElement (toString i) e serializeFunctions true ignoreUndefined +
        calcArrayElems rest (i + 1) serializeFunctions ignoreUndefined
termination_by (bsonWeightA elems, 0)
decreasing_by
  all_goals apply Prod.Lex.left
  all_goals simp only [bsonWeightA]
  all_goals omega

/-- The `for (const key in object)` loop of `calculateObjectSize`,
accumulating `calculateElement(key, object[key], sf, false, iu)`. -/
def calcObjectFields (fields : List (String × BSONValue)) (serializeFunctions ignoreUndefined : Bool) : Nat :=
  match fields with
  | [] => 0
  | p :: rest =>
      calculateElement p.1 p.2 serializeFunctions false ignoreUndefined +
        calcObjectFields rest serializeFunctions ignoreUndefined
termination_by (bsonWeightL fields, 0)
decreasing_by
  all_goals apply Prod.Lex.left
  all_goals simp only [bsonWeightL]
  all_goals omega

/-- Embedding of `calculateElement` (calculate_size.ts, lines 59-267): the
`value?.toBSON` conversion (lines 67-70) is applied once, then the converted
value is dispatched by `calculateElementValue`. -/
def calculateElement (name : String) (value : BSONValue)
    (serializeFunctions isArray ignoreUndefined : Bool) : Nat :=
  match value with
  | .vToBSON r => calculateElementValue name r serializeFunctions isArray ignoreUndefined
  | v => calculateElementValue name v serializeFunctions isArray ignoreUndefined
termination_by (bsonWeight value, 2)
decreasing_by
  all_goals
    first
      | (apply Prod.Lex.right; omega)
      | (apply Prod.Lex.left; simp only [bsonWeight]; omega)

/-- The `switch (typeof value)` dispatch of `calculateElement`
(calculate_size.ts, lines 72-267), applied after the `toBSON` conversion.
The `name != null` ternaries always take the non-null branch because both
call sites pass a string key.  The `typeof value === "function"` RegExp
quirk branch (lines 222-235) is unreachable in the closed union, where a
regular expression is an object shape. -/
def calculateElementValue (name : String) (value : BSONValue)
    (serializeFunctions isArray ignoreUndefined : Bool) : Nat :=
  match value with
  | .vString s =>
      1 + utf8ByteLength name + 1 + 4 + utf8ByteLength s + 1
  | .vNumber q =>
      if ((⌊q⌋ : Int) : Rat) = q ∧ (JS_INT_MIN : Rat) ≤ q ∧ q ≤ (JS_INT_MAX : Rat) then
        if (BSON_INT32_MIN : Rat) ≤ q ∧ q ≤ (BSON_INT32_MAX : Rat) then
          (utf8ByteLength name + 1) + (4 + 1)
        else
          (utf8ByteLength name + 1) + (8 + 1)
      else
        (utf8ByteLength name + 1) + (8 + 1)
  | .vUndefined =>
      if isArray || !ignoreUndefined then (utf8ByteLength name + 1) + 1 else 0
  | .vBoolean _ =>
      (utf8ByteLength name + 1) + (1 + 1)
  | .vNull => (utf8ByteLength name + 1) + 1
  | .vMinKey => (utf8ByteLength name + 1) + 1
  | .vMaxKey => (utf8ByteLength name + 1) + 1
  | .vObjectId => (utf8ByteLength name + 1) + (12 + 1)
  | .vDate => (utf8ByteLength name + 1) + (8 + 1)
  | .vBinaryView byteLength => (utf8ByteLength name + 1) + (1 + 4 + 1) + byteLength
  | .vLong => (utf8ByteLength name + 1) + (8 + 1)
  | .vDouble => (utf8ByteLength name + 1) + (8 + 1)
  | .vTimestamp => (utf8ByteLength name + 1) + (8 + 1)
  | .vDecimal128 => (utf8ByteLength name + 1) + (16 + 1)
  | .vCode code scope =>
      match scope with
      | some s =>
          if s.length > 0 then
            (utf8ByteLength name + 1) + 1 + 4 + 4 + utf8ByteLength code + 1 +
              calculateObjectSize (.vDocument s) serializeFunctions ignoreUndefined
          else
            (utf8ByteLength name + 1) + 1 + 4 + utf8ByteLength code + 1
      | none =>
          (utf8ByteLength name + 1) + 1 + 4 + utf8ByteLength code + 1
  | .vBinary position sub_type =>
      if sub_type = SUBTYPE_BYTE_ARRAY then
        (utf8ByteLength name + 1) + (position + 1 + 4 + 1 + 4)
      else
        (utf8ByteLength name + 1) + (position + 1 + 4 + 1)
  | .vSymbol s =>
      (utf8ByteLength name + 1) + utf8ByteLength s + 4 + 1 + 1
  | .vDBRef collection oid db fields =>
      (utf8ByteLength name + 1) + 1 +
        calculateObjectSize
          (.vDocument
            (("$ref", .vString collection) :: ("$id", oid) :: fields ++
              (match db with
               | some d => [("$db", BSONValue.vString d)]
               | none => [])))
          serializeFunctions ignoreUndefined
  | .vRegExp source global ignoreCase multiline =>
      (utf8ByteLength name + 1) + 1 + utf8ByteLength source + 1 +
        (if global then 1 else 0) + (if ignoreCase then 1 else 0) +
        (if multiline then 1 else 0) + 1
  | .vBSONRegExp pattern options =>
      (utf8ByteLength name + 1) + 1 + utf8ByteLength pattern + 1 +
        utf8ByteLength options + 1
  | .vDocument fields =>
      (utf8ByteLength name + 1) +
        calculateObjectSize (.vDocument fields) serializeFunctions ignoreUndefined + 1
  | .vArray elems =>
      (utf8ByteLength name + 1) +
        calculateObjectSize (.vArray elems) serializeFunctions ignoreUndefined + 1
  | .vToBSON r =>
      (utf8ByteLength name + 1) +
        calculateObjectSize (.vToBSON r) serializeFunctions ignoreUndefined + 1
  | .vFunction source scope =>
      if serializeFunctions then
        match scope with
        | some s =>
            if s.length > 0 then
              (utf8ByteLength name + 1) + 1 + 4 + 4 +
                utf8ByteLength (normalizedFunctionString source) + 1 +
                calculateObjectSize (.vDocument s) serializeFunctions ignoreUndefined
            else
              (utf8ByteLength name + 1) + 1 + 4 +
                utf8ByteLength (normalizedFunctionString source) + 1
        | none =>
            (utf8ByteLength name + 1) + 1 + 4 +
              utf8ByteLength (normalizedFunctionString source) + 1
      else 0
  | .vBigInt => 0
termination_by (bsonWeight value, 1)
decreasing_by
  all_goals simp_wf
  all_goals
    first
      | (apply Prod.Lex.right; omega)
      | (apply Prod.Lex.left; simp only [bsonWeight]; omega)
      | (apply Prod.Lex.left
         cases db <;>
           simp only [bsonWeight, bsonWeightL, bsonWeightA, bsonWeightL_append,
             List.cons_append, List.append_nil] <;>
           omega)

end

/-- The options string derived from a RegExp value: one one-byte character per
set flag among `global`, `ignoreCase` and `multiline`, matching the one byte
the sizing code counts per set flag. -/
def regexFlagsString (g ic m : Bool) : String :=
  (if g then "g" else "") ++ (if ic then "i" else "") ++ (if m then "m" else "")

/-- A single-field chain of nested documents of nesting depth `n + 1`, used to
probe depth behaviour. -/
def nestedDoc : Nat → BSONValue
  | 0 => .vDocument []
  | n + 1 => .vDocument [("a", nestedDoc n)]

/-- Embedding of the canonical Node `Buffer` view produced by `ensureBuffer`:
a window of `byteLength` bytes at `byteOffset` into an underlying byte
block.  Keeping the underlying block itself (rather than a copied slice)
records that no bytes are copied. -/
structure NodeBuffer where
  data : List Nat
  byteOffset : Nat
  byteLength : Nat
deriving DecidableEq

/-- The input shapes `ensureBuffer` distinguishes: an `ArrayBuffer` view
(`ArrayBuffer.isView` — underlying buffer, byteOffset, byteLength), a raw
`ArrayBuffer`, or any other value. -/
inductive PotentialBuffer where
  | view (buffer : List Nat) (byteOffset byteLength : Nat)
  | arrayBuffer (data : List Nat)
  | other
deriving DecidableEq

/-- Embedding of `Buffer.from(view.buffer, view.byteOffset, view.byteLength)`:
a no-copy view of the same underlying block. -/
def bufferFromView (buffer : List Nat) (byteOffset byteLength : Nat) : NodeBuffer :=
  ⟨buffer, byteOffset, byteLength⟩

/-- Embedding of `Buffer.from(arrayBuffer)`: a view over the whole block. -/
def bufferFromArrayBuffer (data : List Nat) : NodeBuffer :=
  ⟨data, 0, data.length⟩

/-- Embedding of `ensureBuffer` (ensure_buffer.ts, lines 12-28); the thrown
`BSONTypeError` is the `Except.error` case, carrying the message. -/
def ensureBuffer : PotentialBuffer → Except String NodeBuffer
  | .view buffer byteOffset byteLength => .ok (bufferFromView buffer byteOffset byteLength)
  | .arrayBuffer data => .ok (bufferFromArrayBuffer data)
  | .other => .error "Must use either Buffer or TypedArray"

theorem utf8ByteLength_regexFlagsString (g ic m : Bool) :
    utf8ByteLength (regexFlagsString g ic m) =
      (if g then 1 else 0) + (if ic then 1 else 0) + (if m then 1 else 0) := by
  cases g <;> cases ic <;> cases m <;> decide

theorem calculateObjectSize_vDocument (fields : List (String × BSONValue))
    (sf iu : Bool) :
    calculateObjectSize (.vDocument fields) sf iu = 4 + 1 + calcObjectFields fields sf iu := by
  simp [calculateObjectSize, keysOf]

theorem calculateObjectSize_vArray (elems : List BSONValue) (sf iu : Bool) :
    calculateObjectSize (.vArray elems) sf iu = 4 + 1 + calcArrayElems elems 0 sf iu := by
  simp [calculateObjectSize]

theorem calcObjectFields_eq_sum (fields : List (String × BSONValue)) (sf iu : Bool) :
    calcObjectFields fields sf iu =
      (fields.map fun p => calculateElement p.1 p.2 sf false iu).sum := by
  induction fields with
  | nil => simp [calcObjectFields]
  | cons p rest ih => simp [calcObjectFields, ih]

theorem calcArrayElems_eq_sum (elems : List BSONValue) (sf iu : Bool) :
    ∀ i : Nat, calcArrayElems elems i sf iu =
      ((elems.enumFrom i).map fun p => calculateElement (toString p.1) p.2 sf true iu).sum := by
  induction elems with
  | nil => intro i; simp [calcArrayElems]
  | cons e rest ih => intro i; simp [calcArrayElems, List.enumFrom, ih]

theorem five_le_calculateObjectSize (v : BSONValue) (sf iu : Bool) :
    5 ≤ calculateObjectSize v sf iu := by
  rw [calculateObjectSize.eq_def]
  split <;> omega

/-- C1: for every document, `calculateObjectSize` is 4 + 1 (length prefix plus
terminating null) plus the sum of the per-element sizes; a string element with
name `n` and value `s` contributes 1 (tag) + utf8(n) + 1 + 4 + utf8(s) + 1;
and the document with one field "a" holding "hello", with both options unset,
sizes to exactly 18 bytes. -/
theorem claim_C1 :
    (∀ (fields : List (String × BSONValue)) (sf iu : Bool),
        calculateObjectSize (.vDocument fields) sf iu =
          4 + 1 + (fields.map fun p => calculateElement p.1 p.2 sf false iu).sum) ∧
    (∀ (name s : String) (sf arr iu : Bool),
        calculateElement name (.vString s) sf arr iu =
          1 + utf8ByteLength name + 1 + 4 + utf8ByteLength s + 1) ∧
    calculateObjectSize (.vDocument [("a", .vString "hello")]) false false = 18 := by
  refine ⟨fun fields sf iu => ?_, fun name s sf arr iu => ?_, ?_⟩
  · rw [calculateObjectSize_vDocument, calcObjectFields_eq_sum]
  · simp [calculateElement, calculateElementValue]
  · simp [calculateObjectSize, calcObjectFields, calculateElement, calculateElementValue,
      keysOf, utf8ByteLength]
    decide

/-- C3: a named undefined value contributes nothing (and is dropped) exactly
when the ignore-undefined option is set and the container is a document; in an
array, or with the option unset, it contributes utf8(name) + 1 + 1. -/
theorem claim_C3 :
    (∀ (name : String) (sf : Bool),
        calculateElement name .vUndefined sf false true = 0) ∧
    (∀ (name : String) (sf iu : Bool),
        calculateElement name .vUndefined sf true iu = (utf8ByteLength name + 1) + 1) ∧
    (∀ (name : String) (sf arr : Bool),
        calculateElement name .vUndefined sf arr false = (utf8ByteLength name + 1) + 1) := by
  refine ⟨fun name sf => ?_, fun name sf iu => ?_, fun name sf arr => ?_⟩ <;>
    simp [calculateElement, calculateElementValue]

/-- C4: a Binary value of payload length `n` contributes, excluding the name,
`n + 1 + 4 + 1 + 4` bytes for the legacy byte-array sub-type and
`n + 1 + 4 + 1` bytes for any other sub-type. -/
theorem claim_C4 :
    (∀ (name : String) (n : Nat) (sf arr iu : Bool),
        calculateElement name (.vBinary n SUBTYPE_BYTE_ARRAY) sf arr iu =
          (utf8ByteLength name + 1) + (n + 1 + 4 + 1 + 4)) ∧
    (∀ (name : String) (n st : Nat) (sf arr iu : Bool), st ≠ SUBTYPE_BYTE_ARRAY →
        calculateElement name (.vBinary n st) sf arr iu =
          (utf8ByteLength name + 1) + (n + 1 + 4 + 1)) := by
  refine ⟨fun name n sf arr iu => ?_, fun name n st sf arr iu hst => ?_⟩
  · simp [calculateElement, calculateElementValue]
  · simp [calculateElement, calculateElementValue, hst]

theorem claim_C4_witness :
    (0 : Nat) ≠ SUBTYPE_BYTE_ARRAY ∧
      calculateElement "a" (.vBinary 3 0) false false false = (1 + 1) + (3 + 1 + 4 + 1) :=
  ⟨by decide, claim_C4.2 "a" 3 0 false false false (by decide)⟩

/-- C5: the calculator is total — it returns a byte count for every tree and
option combination — and categories with no sizing rule contribute 0: a
function value when serializeFunctions is unset, and a bigint always. -/
theorem claim_C5 :
    (∀ (v : BSONValue) (sf iu : Bool), ∃ n : Nat, calculateObjectSize v sf iu = n) ∧
    (∀ (name src : String) (scope : Option (List (String × BSONValue))) (arr iu : Bool),
        calculateElement name (.vFunction src scope) false arr iu = 0) ∧
    (∀ (name : String) (sf arr iu : Bool),
        calculateElement name .vBigInt sf arr iu = 0) := by
  refine ⟨fun v sf iu => ⟨_, rfl⟩, fun name src scope arr iu => ?_, fun name sf arr iu => ?_⟩
  · cases scope <;> simp [calculateElement, calculateElementValue]
  · simp [calculateElement, calculateElementValue]

/-- C8: a RegExp value contributes, beyond the tag byte and the name,
utf8(pattern) + 1 + utf8(options string) + 1 bytes, the options string holding
one character per flag set; a BSONRegExp likewise with its stored pattern and
options strings. -/
theorem claim_C8 :
    (∀ (name src : String) (g ic m : Bool) (sf arr iu : Bool),
        calculateElement name (.vRegExp src g ic m) sf arr iu =
          (utf8ByteLength name + 1) + 1 + utf8ByteLength src + 1 +
            utf8ByteLength (regexFlagsString g ic m) + 1) ∧
    (∀ (name pat opts : String) (sf arr iu : Bool),
        calculateElement name (.vBSONRegExp pat opts) sf arr iu =
          (utf8ByteLength name + 1) + 1 + utf8ByteLength pat + 1 +
            utf8ByteLength opts + 1) := by
  refine ⟨fun name src g ic m sf arr iu => ?_, fun name pat opts sf arr iu => ?_⟩
  · simp only [calculateElement, calculateElementValue,
      utf8ByteLength_regexFlagsString]
    omega
  · simp [calculateElement, calculateElementValue]

theorem calculateElement_vDocument (name : String) (fields : List (String × BSONValue))
    (sf arr iu : Bool) :
    calculateElement name (.vDocument fields) sf arr iu =
      (utf8ByteLength name + 1) + calculateObjectSize (.vDocument fields) sf iu + 1 := by
  simp [calculateElement, calculateElementValue]

/-- C2: number width selection — a whole number inside both the 32-bit signed
range and the safe-integer range takes the 4 + 1 byte tag-plus-payload
contribution; a whole number inside the safe-integer range but outside the
32-bit range, or any non-integral number, takes 8 + 1; in particular
2147483647 sizes as a 4-byte payload, 2147483648 and 3.14 as 8-byte
payloads. -/
theorem claim_C2 :
    (∀ (name : String) (q : Rat) (sf arr iu : Bool),
        ((⌊q⌋ : Int) : Rat) = q →
        (JS_INT_MIN : Rat) ≤ q → q ≤ (JS_INT_MAX : Rat) →
        (BSON_INT32_MIN : Rat) ≤ q → q ≤ (BSON_INT32_MAX : Rat) →
        calculateElement name (.vNumber q) sf arr iu =
          (utf8ByteLength name + 1) + (4 + 1)) ∧
    (∀ (name : String) (q : Rat) (sf arr iu : Bool),
        ((⌊q⌋ : Int) : Rat) = q →
        (JS_INT_MIN : Rat) ≤ q → q ≤ (JS_INT_MAX : Rat) →
        ¬((BSON_INT32_MIN : Rat) ≤ q ∧ q ≤ (BSON_INT32_MAX : Rat)) →
        calculateElement name (.vNumber q) sf arr iu =
          (utf8ByteLength name + 1) + (8 + 1)) ∧
    (∀ (name : String) (q : Rat) (sf arr iu : Bool),
        ((⌊q⌋ : Int) : Rat) ≠ q →
        calculateElement name (.vNumber q) sf arr iu =
          (utf8ByteLength name + 1) + (8 + 1)) ∧
    calculateElement "a" (.vNumber 2147483647) false false false = (1 + 1) + (4 + 1) ∧
    calculateElement "a" (.vNumber 2147483648) false false false = (1 + 1) + (8 + 1) ∧
    calculateElement "a" (.vNumber (157 / 50)) false false false = (1 + 1) + (8 + 1) := by
  refine ⟨fun name q sf arr iu hf hmin hmax h32min h32max => ?_,
          fun name q sf arr iu hf hmin hmax h32 => ?_,
          fun name q sf arr iu hf => ?_, ?_, ?_, ?_⟩
  · simp only [calculateElement, calculateElementValue]
    rw [if_pos ⟨hf, hmin, hmax⟩, if_pos ⟨h32min, h32max⟩]
  · simp only [calculateElement, calculateElementValue]
    rw [if_pos ⟨hf, hmin, hmax⟩, if_neg h32]
  · simp only [calculateElement, calculateElementValue]
    rw [if_neg (fun h => hf h.1)]
  · simp only [calculateElement, calculateElementValue]
    split_ifs with h1 h2
    · decide
    · exact absurd (by norm_num [BSON_INT32_MIN, BSON_INT32_MAX]) h2
    · exact absurd (by norm_num [JS_INT_MIN, JS_INT_MAX]) h1
  · simp only [calculateElement, calculateElementValue]
    split_ifs with h1 h2
    · exact absurd h2.2 (by norm_num [BSON_INT32_MAX])
    · decide
    · exact absurd (by norm_num [JS_INT_MIN, JS_INT_MAX]) h1
  · simp only [calculateElement, calculateElementValue]
    split_ifs with h1 h2
    · exact absurd h1.1 (by norm_num)
    · exact absurd h1.1 (by norm_num)
    · decide

theorem claim_C2_witness :
    ((⌊(5 : Rat)⌋ : Int) : Rat) = 5 ∧
      calculateElement "a" (.vNumber 5) false false false =
        (utf8ByteLength "a" + 1) + (4 + 1) :=
  ⟨by norm_num,
   claim_C2.1 "a" 5 false false false (by norm_num)
     (by norm_num [JS_INT_MIN]) (by norm_num [JS_INT_MAX])
     (by norm_num [BSON_INT32_MIN]) (by norm_num [BSON_INT32_MAX])⟩

theorem calcSize_nestedDoc : ∀ n : Nat, calculateObjectSize (nestedDoc n) false false = 8 * n + 5 := by
  intro n
  induction n with
  | zero => simp [nestedDoc, calculateObjectSize, keysOf, calcObjectFields]
  | succ n ih =>
      obtain ⟨fs, hfs⟩ : ∃ fs, nestedDoc n = .vDocument fs := by
        cases n <;> exact ⟨_, rfl⟩
      rw [hfs] at ih
      have ha : utf8ByteLength "a" = 1 := by decide
      rw [show nestedDoc (n + 1) = .vDocument [("a", nestedDoc n)] from rfl, hfs,
        calculateObjectSize_vDocument]
      simp only [calcObjectFields, calculateElement_vDocument, ih, ha]
      omega

/-- C6 (amended): `calculateObjectSize` imposes no nesting-depth limit and has
no depth-limit error: a single-field document chain of any nesting depth is
sized normally (8 bytes per level over the empty-document base of 5). -/
theorem claim_C6 : ∀ n : Nat, calculateObjectSize (nestedDoc n) false false = 8 * n + 5 :=
  calcSize_nestedDoc

/-- C6 counterexample: a document nested 101 levels deep is sized to 805 bytes
rather than failing with a depth-limit ("too deeply nested") error; the code
has no configured maximum depth at which sizing stops succeeding. -/
theorem claim_C6_counterexample :
    calculateObjectSize (nestedDoc 100) false false = 805 := by
  rw [calcSize_nestedDoc]

/-- C7: a value exposing a `toBSON` conversion is converted first and the size
of the conversion result is computed instead: at the top level for a document,
and for any element value (whose conversion result is not itself again a
`toBSON`-carrying object, where the calculator instead recurses as for a
nested document). -/
theorem claim_C7 :
    (∀ (fields : List (String × BSONValue)) (sf iu : Bool),
        calculateObjectSize (.vToBSON (.vDocument fields)) sf iu =
          calculateObjectSize (.vDocument fields) sf iu) ∧
    (∀ (name : String) (r : BSONValue) (sf arr iu : Bool),
        (∀ r' : BSONValue, r ≠ .vToBSON r') →
        calculateElement name (.vToBSON r) sf arr iu =
          calculateElement name r sf arr iu) := by
  constructor
  · intro fields sf iu
    simp [calculateObjectSize, keysOf]
  · intro name r sf arr iu hr
    have h1 : calculateElement name (.vToBSON r) sf arr iu =
        calculateElementValue name r sf arr iu := by
      simp [calculateElement]
    rw [h1]
    cases r
    case vToBSON r => exact absurd rfl (hr r)
    all_goals simp [calculateElement]

theorem claim_C7_witness :
    calculateElement "k" (.vToBSON (.vString "s")) false false false =
      calculateElement "k" (.vString "s") false false false :=
  claim_C7.2 "k" (.vString "s") false false false (fun _ h => BSONValue.noConfusion h)

/-- C9: `ensureBuffer` wraps an `ArrayBuffer` view as a buffer over the same
underlying block at the same byteOffset and byteLength without copying, wraps
a raw `ArrayBuffer` as a buffer over its whole block, and throws `BSONTypeError`
exactly on every other input. -/
theorem claim_C9 :
    (∀ (buffer : List Nat) (byteOffset byteLength : Nat),
        ensureBuffer (.view buffer byteOffset byteLength) =
          .ok ⟨buffer, byteOffset, byteLength⟩) ∧
    (∀ data : List Nat,
        ensureBuffer (.arrayBuffer data) = .ok ⟨data, 0, data.length⟩) ∧
    (∀ x : PotentialBuffer, (∃ e, ensureBuffer x = .error e) ↔ x = .other) := by
  refine ⟨fun b o l => rfl, fun d => rfl, fun x => ?_⟩
  cases x <;> simp [ensureBuffer, bufferFromView, bufferFromArrayBuffer]

theorem claim_C9_witness : ∃ e, ensureBuffer .other = .error e :=
  (claim_C9.2.2 .other).mpr rfl

theorem calcObjectFields_eq_zero_iff (fields : List (String × BSONValue)) (sf iu : Bool) :
    calcObjectFields fields sf iu = 0 ↔
      ∀ p ∈ fields, calculateElement p.1 p.2 sf false iu = 0 := by
  induction fields with
  | nil => simp [calcObjectFields]
  | cons p rest ih =>
      simp only [calcObjectFields, Nat.add_eq_zero, ih, List.forall_mem_cons]

theorem calcArrayElems_eq_zero_iff (elems : List BSONValue) (sf iu : Bool) :
    ∀ i : Nat, calcArrayElems elems i sf iu = 0 ↔
      ∀ p ∈ elems.enumFrom i, calculateElement (toString p.1) p.2 sf true iu = 0 := by
  induction elems with
  | nil => intro i; simp [calcArrayElems, List.enumFrom]
  | cons e rest ih =>
      intro i
      simp only [calcArrayElems, Nat.add_eq_zero, ih, List.enumFrom,
        List.forall_mem_cons]

/-- C10: every size computed by `calculateObjectSize` is at least 5 (the 4-byte
length prefix plus the terminating null), and a document or array sizes to
exactly 5 precisely when every one of its elements contributes 0 — e.g. the
empty document, or a document whose fields are a dropped undefined and an
unserialized function. -/
theorem claim_C10 :
    (∀ (v : BSONValue) (sf iu : Bool), 5 ≤ calculateObjectSize v sf iu) ∧
    (∀ (fields : List (String × BSONValue)) (sf iu : Bool),
        calculateObjectSize (.vDocument fields) sf iu = 5 ↔
          ∀ p ∈ fields, calculateElement p.1 p.2 sf false iu = 0) ∧
    (∀ (elems : List BSONValue) (sf iu : Bool),
        calculateObjectSize (.vArray elems) sf iu = 5 ↔
          ∀ p ∈ elems.enumFrom 0, calculateElement (toString p.1) p.2 sf true iu = 0) ∧
    calculateObjectSize (.vDocument []) false false = 5 ∧
    calculateObjectSize
      (.vDocument [("a", .vUndefined), ("b", .vFunction "function f() \x7b\x7d" none)])
      false true = 5 := by
  refine ⟨five_le_calculateObjectSize, fun fields sf iu => ?_, fun elems sf iu => ?_, ?_, ?_⟩
  · rw [calculateObjectSize_vDocument, ← calcObjectFields_eq_zero_iff]
    omega
  · rw [calculateObjectSize_vArray, ← calcArrayElems_eq_zero_iff]
    omega
  · simp [calculateObjectSize, keysOf, calcObjectFields]
  · simp [calculateObjectSize, keysOf, calcObjectFields, calculateElement,
      calculateElementValue]

theorem claim_C10_witness :
    5 ≤ calculateObjectSize (.vDocument [("a", .vString "hello")]) false false :=
  claim_C10.1 _ _ _
